import Mathlib

/-!
Shallow embedding of the YouTube-Cursor scraper core
(`src/scraper/youtube_scraper.py`, `src/scraper/browserless_client.py`,
`src/storage/local_storage.py`, `src/storage/sheets_writer.py`, `main.py`)
and proofs about its specified properties.

Modelling conventions:
* Python strings are Lean `String`s; most text processing is done on `List Char`.
* Python `None` for an optional string is `Option.none`; Python truthiness of a
  string is non-emptiness.
* Python floats are modelled as exact rationals `ℚ`; `int()` truncation of a
  nonnegative value is `Rat.floor`.
* The regex character class `\d` is modelled as the ASCII digits.
* Fallible external effects (browser attempts, storage backends) are modelled
  as explicit oracles / state passing; `Except Unit` models a raised exception.
-/

set_option maxRecDepth 10000

namespace YTScraper

/-- The unit table of `YoutubeScraper._parse_views_count`, in Python dict
insertion order (the iteration order of `multipliers.items()`).  Every key is
a single character, so Python substring containment (`unit in views_text`)
is exactly character membership. -/
def multipliers : List (Char × ℕ) :=
  [('K', 1000), ('k', 1000), ('千', 1000), ('M', 1000000), ('m', 1000000),
   ('万', 10000), ('B', 1000000000), ('b', 1000000000), ('億', 100000000)]

/-- `views_text.replace(',', '').replace('，', '')` at character level
(removing every occurrence of a one-character pattern is a filter). -/
def stripCommas (cs : List Char) : List Char :=
  cs.filter (fun c => !(c == ',' || c == '，'))

/-- Characters matched by the regex class `[\d\.]`. -/
def isDigitDot (c : Char) : Bool := c.isDigit || c == '.'

/-- `re.search(r'([\d\.]+)', s)`: the leftmost maximal run of digit/dot
characters, or `none` when the pattern does not occur. -/
def searchDigitRun : List Char → Option (List Char)
  | [] => none
  | c :: cs =>
    if isDigitDot c then some ((c :: cs).takeWhile isDigitDot)
    else searchDigitRun cs

/-- Numeric value of a digit string (most significant first). -/
def digitsToNat (cs : List Char) : ℕ :=
  cs.foldl (fun a c => a * 10 + (c.toNat - 48)) 0

/-- Model of Python `float(s)` restricted to strings drawn from `[\d\.]+`
(all that its callers in `_parse_views_count` ever feed it): defined exactly
when there is at most one dot and at least one digit (otherwise `float`
raises `ValueError`).  The value is the exact decimal `a / 10 ^ k`,
represented as the pair `(a, k)` of the digit string's integer value and the
number of fractional digits. -/
def pyFloatDigits (cs : List Char) : Option (ℕ × ℕ) :=
  if cs.all isDigitDot && decide (cs.count '.' ≤ 1) && cs.any Char.isDigit then
    some (digitsToNat (cs.filter (fun c => c != '.')),
          ((cs.dropWhile (fun c => c != '.')).drop 1).length)
  else none

/-- `int(float(re.search(r'([\d\.]+)', t).group(1)) * m)` with every failure
(`AttributeError` on a missing match, `ValueError` from `float`) collapsed to
the surrounding `except: return 0`.  The unit-less branch of
`_parse_views_count` is this with `m = 1`.  Truncating the nonnegative exact
decimal `(a / 10 ^ k) * m` to an integer is the floor division
`a * m / 10 ^ k`. -/
def numericPart (t : List Char) (m : ℕ) : ℤ :=
  match searchDigitRun t with
  | none => 0
  | some num =>
    match pyFloatDigits num with
    | none => 0
    | some ak => ((ak.1 * m / 10 ^ ak.2 : ℕ) : ℤ)

/-- Embedding of `YoutubeScraper._parse_views_count`.  `none` is Python
`None`; the `s.isEmpty` test is the `if not views_text` truthiness guard;
the first unit character (in table order) contained in the comma-stripped
text selects the multiplier. -/
def parseViewsCount : Option String → ℤ
  | none => 0
  | some s =>
    if s.isEmpty then 0
    else
      match multipliers.find? (fun um => (stripCommas s.toList).contains um.1) with
      | some um => numericPart (stripCommas s.toList) um.2
      | none => numericPart (stripCommas s.toList) 1

/-! ### Record extraction (`YoutubeScraper._extract_video_data`) -/

/-- Whitespace characters of the regex class `\s` (ASCII range). -/
def isWs (c : Char) : Bool :=
  c == ' ' || c == '\t' || c == '\n' || c == '\x0b' || c == '\x0c' || c == '\r'

/-- Does the pattern occur at the head of the list? -/
def leadsWith : List Char → List Char → Bool
  | [], _ => true
  | _ :: _, [] => false
  | p :: ps, c :: cs => p == c && leadsWith ps cs

/-- Python substring containment `needle in hay`, over characters. -/
def containsSeq (needle : List Char) : List Char → Bool
  | [] => leadsWith needle []
  | c :: cs => leadsWith needle (c :: cs) || containsSeq needle cs

/-- Python `needle in hay` on strings. -/
def strContains (hay needle : String) : Bool := containsSeq needle.toList hay.toList

/-- Greedy consumption of `(?:,\d+)*`: repeatedly a comma followed by a
maximal nonempty digit run.  Each round consumes at least two characters, so
`cs.length` rounds of fuel always suffice (see `commaGroups`). -/
def commaGroupsAux : ℕ → List Char → List Char × List Char
  | 0, cs => ([], cs)
  | fuel + 1, cs =>
    match cs with
    | ',' :: c :: rest0 =>
      if c.isDigit then
        let ds := (c :: rest0).takeWhile Char.isDigit
        let rest := (c :: rest0).dropWhile Char.isDigit
        let pr := commaGroupsAux fuel rest
        (',' :: (ds ++ pr.1), pr.2)
      else ([], cs)
    | _ => ([], cs)

/-- `(?:,\d+)*`, greedy: the consumed characters and the remainder. -/
def commaGroups (cs : List Char) : List Char × List Char := commaGroupsAux cs.length cs

/-- `(?:\.\d+)?`, greedy: a dot followed by a maximal nonempty digit run, or
nothing. -/
def fracOpt : List Char → List Char × List Char
  | '.' :: c :: cs =>
    if c.isDigit then
      ('.' :: (c :: cs).takeWhile Char.isDigit, (c :: cs).dropWhile Char.isDigit)
    else ([], '.' :: c :: cs)
  | cs => ([], cs)

/-- One anchored attempt of `(\d+(?:,\d+)*(?:\.\d+)?)\s*(?:回|views)` at the
head of `cs`, returning group 1.  Greedy matching is deterministic here: the
characters that follow each sub-pattern (digit, comma, dot, whitespace,
`回`/`views`) are pairwise disjoint, so no backtracking can turn a failed
greedy attempt into a success. -/
def matchAriaAt (cs : List Char) : Option (List Char) :=
  match cs with
  | c :: _ =>
    if c.isDigit then
      let ds := cs.takeWhile Char.isDigit
      let cg := commaGroups (cs.dropWhile Char.isDigit)
      let fr := fracOpt cg.2
      let r := fr.2.dropWhile isWs
      if leadsWith ['回'] r || leadsWith "views".toList r then
        some (ds ++ cg.1 ++ fr.1)
      else none
    else none
  | [] => none

/-- `re.search(r'(\d+(?:,\d+)*(?:\.\d+)?)\s*(?:回|views)', s)`, group 1:
leftmost position wins. -/
def searchAriaViews : List Char → Option (List Char)
  | [] => none
  | c :: cs =>
    match matchAriaAt (c :: cs) with
    | some g => some g
    | none => searchAriaViews cs

/-- Characters of the regex class `[\d,\.]`. -/
def isNumPunct (c : Char) : Bool := c.isDigit || c == ',' || c == '.'

/-- `re.search(r'([\d,\.]+[KMB]?)', s)`, group 1: leftmost maximal run of
`[\d,\.]` characters followed by at most one `K`/`M`/`B`. -/
def searchMetaCount : List Char → Option (List Char)
  | [] => none
  | c :: cs =>
    if isNumPunct c then
      let run := (c :: cs).takeWhile isNumPunct
      let rest := (c :: cs).dropWhile isNumPunct
      match rest with
      | k :: _ =>
        if k == 'K' || k == 'M' || k == 'B' then some (run ++ [k]) else some run
      | [] => some run
    else searchMetaCount cs

/-- The `#video-title` sub-element of a rendered result: the three attribute
values the extractor reads from it (`none` models a missing attribute). -/
structure TitleElem where
  titleAttr : Option String
  href : Option String
  ariaLabel : Option String
deriving DecidableEq

/-- A rendered `ytd-video-renderer` element, as seen through the extractor's
queries: the (possibly missing) `#video-title` node, the inner texts of the
`span.style-scope.ytd-video-meta-block` nodes, and the inner texts of the
channel-name and upload-time nodes when those nodes exist. -/
structure Element where
  titleElem : Option TitleElem
  metaTexts : List String
  channelText : Option String
  timeText : Option String
deriving DecidableEq

/-- One extracted video record (the dict `_extract_video_data` returns).
`savedAt` models the `saved_at` key: absent (`none`) until a storage backend
stamps it. -/
structure Record where
  title : String
  url : String
  viewsText : String
  viewsCount : ℤ
  channelName : Option String
  uploadTime : Option String
  scrapeTimestamp : ℚ
  savedAt : Option String
deriving DecidableEq

/-- Model of `urllib.parse.urljoin('https://www.youtube.com', url)` for the
href shapes an anchor can carry: an absolute URL is kept, a scheme-relative
`//…` gets `https:`, and root-relative / relative paths are resolved against
the origin. -/
def urljoinYoutube (u : String) : String :=
  if strContains u "://" then u
  else if leadsWith "//".toList u.toList then "https:" ++ u
  else if leadsWith "/".toList u.toList then "https://www.youtube.com" ++ u
  else "https://www.youtube.com/" ++ u

/-- The two-source view-count text of `_extract_video_data`: primary, the
`aria-label` of `#video-title` matched against the counter pattern (only
scanned when the attribute is truthy); fallback, the first metadata span
whose text contains `回視聴` or `views` and matches the unit-aware pattern. -/
def viewsTextOf (e : Element) : Option String :=
  match (match e.titleElem with
         | none => none
         | some te =>
           match te.ariaLabel with
           | none => none
           | some a =>
             if a.isEmpty then none else (searchAriaViews a.toList).map List.asString) with
  | some v => some v
  | none =>
    e.metaTexts.findSome? fun t =>
      if strContains t "回視聴" || strContains t "views" then
        (searchMetaCount t.toList).map List.asString
      else none

/-- Embedding of `YoutubeScraper._extract_video_data`.  `now` is the value
of `asyncio.get_event_loop().time()` at extraction time.  A falsy (missing
or empty) title or url fails the whole record; `views_text or '不明'` is the
Python `or` on a possibly-falsy string. -/
def extractVideoData (now : ℚ) (e : Element) : Option Record :=
  match e.titleElem.bind TitleElem.titleAttr,
        (e.titleElem.bind TitleElem.href).map
          (fun u => if u.isEmpty then u else urljoinYoutube u) with
  | some t, some u =>
    if t.isEmpty || u.isEmpty then none
    else
      some { title := t
             url := u
             viewsText := match viewsTextOf e with
                          | some v => if v.isEmpty then "不明" else v
                          | none => "不明"
             viewsCount := parseViewsCount (viewsTextOf e)
             channelName := e.channelText
             uploadTime := e.timeText
             scrapeTimestamp := now
             savedAt := none }
  | _, _ => none

/-- Python falsiness of an optional string (`not x` for `x: Optional[str]`):
true for `None` and for the empty string. -/
def optFalsy : Option String → Bool
  | none => true
  | some s => s.isEmpty

/-! ### Pagination loop (`YoutubeScraper.scrape`) -/

/-- The hard-coded `max_scroll_attempts = 10` of `scrape`. -/
def maxScrollAttempts : ℕ := 10

/-- The loop state of `scrape`: the accumulated `results`, the slice start
`prev_count`, and the consecutive-stagnation counter `scroll_attempts`. -/
structure ScrapeState where
  results : List Record
  prevCount : ℕ
  scrollAttempts : ℕ
deriving DecidableEq

/-- The state just before the first cycle. -/
def initState : ScrapeState := ⟨[], 0, 0⟩

/-- The inner `for element in video_elements[prev_count:]` loop: extract
each element in order, appending successes, breaking once `max_results`
records have been accumulated. -/
def harvestElems (now : ℚ) (maxResults : ℕ) : List Element → List Record → List Record
  | [], acc => acc
  | e :: es, acc =>
    if maxResults ≤ acc.length then acc
    else
      match extractVideoData now e with
      | some r => harvestElems now maxResults es (acc ++ [r])
      | none => harvestElems now maxResults es acc

/-- The elements on which the inner loop actually invokes the extractor
(the `break` can leave a tail of the slice unprocessed); `len` is the
record count at entry. -/
def processedElems (now : ℚ) (maxResults : ℕ) : List Element → ℕ → List Element
  | [], _ => []
  | e :: es, len =>
    if maxResults ≤ len then []
    else
      match extractVideoData now e with
      | some _ => e :: processedElems now maxResults es (len + 1)
      | none => e :: processedElems now maxResults es len

/-- One cycle of the `while` loop of `scrape`: harvest the slice of the
currently rendered elements beyond `prev_count`, bump the stagnation counter
on no growth (reset it otherwise), and set `prev_count` to the new result
count. -/
def scrapeCycle (now : ℚ) (maxResults : ℕ) (elems : List Element) (s : ScrapeState) :
    ScrapeState :=
  { results := harvestElems now maxResults (elems.drop s.prevCount) s.results
    prevCount := (harvestElems now maxResults (elems.drop s.prevCount) s.results).length
    scrollAttempts :=
      if (harvestElems now maxResults (elems.drop s.prevCount) s.results).length = s.prevCount
      then s.scrollAttempts + 1 else 0 }

/-- The `while` guard of `scrape`. -/
def continueScrape (maxResults : ℕ) (s : ScrapeState) : Bool :=
  decide (s.results.length < maxResults) && decide (s.scrollAttempts < maxScrollAttempts)

/-- The `while` loop of `scrape`, driven by explicit fuel; `dom k` is the
list of rendered elements at the start of cycle `k` (the scroll action's
effect lives in later `dom` values, which are unconstrained).  `none` models
fuel exhaustion only — the termination theorem shows enough fuel always
exists. -/
def scrapeLoop (now : ℚ) (maxResults : ℕ) (dom : ℕ → List Element) :
    ℕ → ℕ → ScrapeState → Option ScrapeState
  | 0, _, _ => none
  | fuel + 1, k, s =>
    if continueScrape maxResults s then
      scrapeLoop now maxResults dom fuel (k + 1) (scrapeCycle now maxResults (dom k) s)
    else some s

/-- `YoutubeScraper.scrape` after navigation: run the loop from the initial
state and return `results[:max_results]`. -/
def scrape (now : ℚ) (maxResults : ℕ) (dom : ℕ → List Element) (fuel : ℕ) :
    Option (List Record) :=
  (scrapeLoop now maxResults dom fuel 0 initState).map fun s => s.results.take maxResults

/-- Termination measure: every cycle either strictly grows `results`
(bounded by `maxResults`) or strictly grows `scrollAttempts` (bounded by
`maxScrollAttempts`). -/
def scrapeMeasure (maxResults : ℕ) (s : ScrapeState) : ℕ :=
  (maxResults - s.results.length) * (maxScrollAttempts + 1) +
    (maxScrollAttempts - s.scrollAttempts) + 1

/-! ### Persistence (`main.save_results`, `LocalFileStorage`,
`GoogleSheetsStorage`) -/

/-- A Python value in a loaded row dict: a string, an int, or `None`. -/
inductive PyVal
  | str (s : String)
  | int (z : ℤ)
  | null
deriving DecidableEq

/-- Valid digit body for Python `int()` after sign stripping: nonempty ASCII
digit groups separated by single underscores. -/
def validIntBody (cs : List Char) : Bool :=
  !cs.isEmpty &&
  cs.all (fun c => c.isDigit || c == '_') &&
  (match cs.head? with | some c => c.isDigit | none => false) &&
  (match cs.getLast? with | some c => c.isDigit | none => false) &&
  !containsSeq ['_', '_'] cs

/-- Model of Python `int(s)` on strings: optional surrounding whitespace, an
optional sign, then a valid digit body; `none` models the `ValueError` on
anything else. -/
def pyInt (s : String) : Option ℤ :=
  match ((s.toList.dropWhile isWs).reverse.dropWhile isWs).reverse with
  | '+' :: rest =>
    if validIntBody rest then some ((digitsToNat (rest.filter (fun c => c != '_')) : ℕ) : ℤ)
    else none
  | '-' :: rest =>
    if validIntBody rest then some (-((digitsToNat (rest.filter (fun c => c != '_')) : ℕ) : ℤ))
    else none
  | rest =>
    if validIntBody rest then some ((digitsToNat (rest.filter (fun c => c != '_')) : ℕ) : ℤ)
    else none

/-- A Google-Sheets row (the cell strings of one row of range `A:G`); a
sheet is all its rows, header included when present. -/
abbrev SheetRow := List String

/-- The stored remote sheet, as `values.get` returns it. -/
abbrev Sheet := List SheetRow

/-- The header row `_create_headers` writes. -/
def sheetHeader : SheetRow :=
  ["タイトル", "URL", "再生数", "再生数（数値）", "チャンネル名", "投稿日時", "取得日時"]

/-- The row `GoogleSheetsStorage.save` builds for one record; `wallClock` is
`datetime.now().strftime('%Y-%m-%d %H:%M:%S')`.  A `None` channel or upload
value serialises as an empty cell. -/
def recordToRow (wallClock : String) (r : Record) : SheetRow :=
  [r.title, r.url, r.viewsText, toString r.viewsCount,
   r.channelName.getD "", r.uploadTime.getD "", wallClock]

/-- `GoogleSheetsStorage.save` with the service initialised, the sheet id
set and the API calls succeeding: create the header when the sheet holds no
values at all, then append one row per record. -/
def sheetsSave (wallClock : String) (sh : Sheet) (data : List Record) : Sheet :=
  (if sh.isEmpty then [sheetHeader] else sh) ++ data.map (recordToRow wallClock)

/-- The header-to-key translation of `GoogleSheetsStorage.load`. -/
def keyMap (h : String) : String :=
  if h = "タイトル" then "title"
  else if h = "URL" then "url"
  else if h = "再生数" then "views_text"
  else if h = "チャンネル名" then "channel_name"
  else if h = "投稿日時" then "upload_time"
  else if h = "取得日時" then "saved_at"
  else h

/-- One loaded row dict of `GoogleSheetsStorage.load`: each header paired
with the cell at the same index (`if i < len(row)` is the `zip`
truncation); the numeric-count column is parsed with `int`, a `ValueError`
becoming `0`. -/
def sheetLoadItem (headers row : SheetRow) : List (String × PyVal) :=
  (headers.zip row).map fun hv =>
    if hv.1 = "再生数（数値）" then
      ("views_count", match pyInt hv.2 with | some z => PyVal.int z | none => PyVal.int 0)
    else (keyMap hv.1, PyVal.str hv.2)

/-- Python dict lookup on an assoc list built left to right (a later entry
for the same key overwrites an earlier one, hence the reverse). -/
def dictGet (item : List (String × PyVal)) (k : String) : Option PyVal :=
  (item.reverse).lookup k

/-- `GoogleSheetsStorage.load`: empty when fewer than two value rows exist;
otherwise each data row becomes a dict, empty dicts dropped (`if item`). -/
def sheetsLoad (sh : Sheet) : List (List (String × PyVal)) :=
  match sh with
  | [] => []
  | [_] => []
  | headers :: rest =>
    (rest.map (sheetLoadItem headers)).filter fun item => !item.isEmpty

/-- `GoogleSheetsStorage.check_duplicates`: the input urls already present
among the truthy `url` values of the loaded rows. -/
def checkDuplicates (sh : Sheet) (urls : List String) : List String :=
  urls.filter fun u =>
    ((sheetsLoad sh).filterMap fun item =>
      match dictGet item "url" with
      | some (PyVal.str v) => if v.isEmpty then none else some v
      | _ => none).contains u

/-- The Google-Sheets branch of `main.save_results` (entered with a nonempty
result list, `use_sheets` true and `config.sheet_id` set; API calls
succeeding): collect the truthy urls, drop the records whose url is already
stored, and append what remains — nothing is written when every record was a
duplicate (`if results and await sheets_storage.save(results)`). -/
def sheetsPersist (wallClock : String) (sh : Sheet) (results : List Record) : Sheet :=
  if results.isEmpty then sh
  else
    let dups := checkDuplicates sh
      (results.filterMap fun r => if r.url.isEmpty then none else some r.url)
    let kept := results.filter fun r => !dups.contains r.url
    if kept.isEmpty then sh else sheetsSave wallClock sh kept

/-- Oracle for the local-file backend calls of one `save_results` run:
`Except.error ()` models a raised exception, `Except.ok b` the boolean
return. -/
structure LocalBehavior where
  jsonSave : Except Unit Bool
  csvSave : Except Unit Bool

/-- Oracle for the Google-Sheets backend calls of one `save_results` run. -/
structure SheetsBehavior where
  checkDup : Except Unit (List String)
  save : Except Unit Bool

/-- Per-backend outcome report of one `save_results` run. -/
structure SaveOutcomes where
  jsonSaved : Bool
  csvSaved : Bool
  sheetsAttempted : Bool
  sheetsSaved : Bool
  successCount : ℕ
deriving DecidableEq

/-- The local-file block of `save_results`: one `try` covers both writes, so
a raise in the JSON write also skips the CSV write; a `False` return does
not. -/
def localBlock (useLocal : Bool) (b : LocalBehavior) : Bool × Bool :=
  if !useLocal then (false, false)
  else
    match b.jsonSave with
    | Except.error _ => (false, false)
    | Except.ok j =>
      match b.csvSave with
      | Except.error _ => (j, false)
      | Except.ok c => (j, c)

/-- The Google-Sheets block of `save_results`: duplicate check, filter, then
the guarded save; a raise anywhere in the block is caught and reported as
not-saved. -/
def sheetsBlock (useSheets sheetIdSet : Bool) (results : List Record)
    (b : SheetsBehavior) : Bool × Bool :=
  if !(useSheets && sheetIdSet) then (false, false)
  else
    match b.checkDup with
    | Except.error _ => (true, false)
    | Except.ok dups =>
      if (results.filter fun r => !dups.contains r.url).isEmpty then (true, false)
      else
        match b.save with
        | Except.error _ => (true, false)
        | Except.ok ok => (true, ok)

/-- Embedding of `main.save_results`, reporting per-backend outcomes: the
local block runs first, the sheets block second, each inside its own
`try/except`. -/
def saveResults (results : List Record) (useSheets useLocal sheetIdSet : Bool)
    (lb : LocalBehavior) (sb : SheetsBehavior) : SaveOutcomes :=
  if results.isEmpty then ⟨false, false, false, false, 0⟩
  else
    { jsonSaved := (localBlock useLocal lb).1
      csvSaved := (localBlock useLocal lb).2
      sheetsAttempted := useSheets && sheetIdSet
      sheetsSaved := (sheetsBlock useSheets sheetIdSet results sb).2
      successCount :=
        (if (localBlock useLocal lb).1 then 1 else 0) +
        (if (localBlock useLocal lb).2 then 1 else 0) +
        (if (sheetsBlock useSheets sheetIdSet results sb).2 then 1 else 0) }

/-- The `saved_at` stamping `LocalFileStorage.save` performs on each record:
`if 'saved_at' not in item: item['saved_at'] = datetime.now().isoformat()`. -/
def stampSavedAt (ts : String) (r : Record) : Record :=
  if r.savedAt.isNone then { r with savedAt := some ts } else r

/-- The record list as mutated in place by `LocalFileStorage.save` before
serialisation. -/
def localStampAll (ts : String) (data : List Record) : List Record :=
  data.map (stampSavedAt ts)

/-- State of the JSON backing file: missing, present but not parseable
(`json.JSONDecodeError`, or any read failure caught by the outer `except`),
or a parsed list of dicts. -/
inductive JsonFileState
  | missing
  | unparsable
  | content (items : List (List (String × PyVal)))

/-- State of the CSV backing file: missing, unreadable, or its rows of cell
strings (the first row being the header `csv.DictReader` uses). -/
inductive CsvFileState
  | missing
  | unreadable
  | content (rows : List (List String))

/-- `csv.DictReader`'s dict for one row: header keys paired with this row's
cells, missing cells filled with the default `restval = None`.  (Cells
beyond the header go under the `None` key, which nothing here reads.) -/
def csvDictRow : List String → List String → List (String × PyVal)
  | [], _ => []
  | h :: hs, [] => (h, PyVal.null) :: csvDictRow hs []
  | h :: hs, v :: vs => (h, PyVal.str v) :: csvDictRow hs vs

/-- The `views_count` fix-up of `_load_csv`: a truthy string cell under the
`views_count` key is parsed with `int`, a `ValueError` becoming `0`; falsy
(`''` or `None`) cells are left untouched by the `and row['views_count']`
guard. -/
def fixViewsCount (item : List (String × PyVal)) : List (String × PyVal) :=
  item.map fun kv =>
    if kv.1 = "views_count" then
      match kv.2 with
      | PyVal.str s =>
        if s.isEmpty then kv
        else ("views_count", match pyInt s with | some z => PyVal.int z | none => PyVal.int 0)
      | _ => kv
    else kv

/-- `LocalFileStorage.load` for `format == 'json'`. -/
def localLoadJson : JsonFileState → List (List (String × PyVal))
  | JsonFileState.missing => []
  | JsonFileState.unparsable => []
  | JsonFileState.content items => items

/-- `LocalFileStorage.load` for `format == 'csv'`: an empty file yields no
rows from `DictReader`; otherwise every data row is converted. -/
def localLoadCsv : CsvFileState → List (List (String × PyVal))
  | CsvFileState.missing => []
  | CsvFileState.unreadable => []
  | CsvFileState.content [] => []
  | CsvFileState.content (hdr :: rows) =>
    rows.map fun row => fixViewsCount (csvDictRow hdr row)

/-! ### Connection retry (`BrowserlessClient.connect`) -/

/-- Outcome of `BrowserlessClient.connect`: the browser established on a
given 0-based attempt, the final exception re-raised, or — only possible
with `max_retries = 0` — the loop body never ran and the function fell off
the end returning `None`. -/
inductive ConnectResult
  | connected (attempt : ℕ)
  | raised
  | fellThrough
deriving DecidableEq

/-- The `for attempt in range(max_retries)` loop of `connect`, at attempt
`i` with `n` attempts remaining; `ok j` tells whether the j-th (0-based)
`connect_over_cdp` call succeeds.  Returns the outcome and the backoff
delays slept, in order: `retry_delay * 2 ** attempt` after every failed
attempt except the last one. -/
def connectGo (retryDelay : ℚ) (ok : ℕ → Bool) : ℕ → ℕ → ConnectResult × List ℚ
  | _, 0 => (ConnectResult.fellThrough, [])
  | i, n + 1 =>
    if ok i then (ConnectResult.connected i, [])
    else if n = 0 then (ConnectResult.raised, [])
    else
      ((connectGo retryDelay ok (i + 1) n).1,
       retryDelay * 2 ^ i :: (connectGo retryDelay ok (i + 1) n).2)

/-- `BrowserlessClient.connect` with `config.max_retries` attempts. -/
def connectRun (maxRetries : ℕ) (retryDelay : ℚ) (ok : ℕ → Bool) : ConnectResult × List ℚ :=
  connectGo retryDelay ok 0 maxRetries

/-! ### Theorems -/

theorem numericPart_nonneg (t : List Char) (m : ℕ) : 0 ≤ numericPart t m := by
  unfold numericPart
  split
  · exact le_refl 0
  · split
    · exact le_refl 0
    · exact Int.natCast_nonneg _

theorem parseViewsCount_nonneg (o : Option String) : 0 ≤ parseViewsCount o := by
  unfold parseViewsCount
  match o with
  | none => exact le_refl 0
  | some s =>
    repeat' split
    all_goals first
      | exact le_refl 0
      | exact numericPart_nonneg _ _

/-- C1: on the spec's example table the counter parser returns exactly the
documented integers (`"1.2M" ↦ 1200000`, `"1,234" ↦ 1234`, `"3万" ↦ 30000`,
`"2億" ↦ 200000000`, `"500" ↦ 500`, `"" ↦ 0`, `None ↦ 0`), and for every
string input it returns a nonnegative integer (the embedding is a total
function, mirroring the `try/except` that lets no exception escape). -/
theorem C1_counter_parser_table_and_totality :
    (parseViewsCount (some "1.2M") = 1200000 ∧
     parseViewsCount (some "1,234") = 1234 ∧
     parseViewsCount (some "3万") = 30000 ∧
     parseViewsCount (some "2億") = 200000000 ∧
     parseViewsCount (some "500") = 500 ∧
     parseViewsCount (some "") = 0 ∧
     parseViewsCount none = 0) ∧
    ∀ s : String, 0 ≤ parseViewsCount (some s) := by
  refine ⟨⟨?_, ?_, ?_, ?_, ?_, ?_, ?_⟩, fun s => parseViewsCount_nonneg (some s)⟩
  all_goals decide

theorem append_isEmpty_false (p u : String) (hp : p.length ≠ 0) :
    (p ++ u).isEmpty = false := by
  apply Bool.eq_false_iff.mpr
  intro hc
  have h0 := (String.isEmpty_iff _).mp hc
  have hl := congrArg String.length h0
  rw [String.length_append] at hl
  simp at hl
  omega

theorem urljoinYoutube_isEmpty_false (u : String) (h : u.isEmpty = false) :
    (urljoinYoutube u).isEmpty = false := by
  unfold urljoinYoutube
  split
  · exact h
  · split
    · exact append_isEmpty_false _ _ (by decide)
    · split
      · exact append_isEmpty_false _ _ (by decide)
      · exact append_isEmpty_false _ _ (by decide)

/-- C5: every record the extractor returns satisfies
`views_count = CounterParser(views_text)` — also in the case where no count
text was found and `views_text` is the sentinel `不明` — and the persistence
layer's `saved_at` stamping leaves `views_count` unchanged. -/
theorem C5_views_count_consistent (now : ℚ) (e : Element) (r : Record)
    (h : extractVideoData now e = some r) :
    r.viewsCount = parseViewsCount (some r.viewsText) ∧
    ∀ ts : String, (stampSavedAt ts r).viewsCount = r.viewsCount := by
  constructor
  · unfold extractVideoData at h
    split at h
    · split at h
      · exact absurd h (by simp)
      · rw [Option.some.injEq] at h
        subst h
        dsimp only
        rcases hv : viewsTextOf e with _ | v
        · simp only [hv]
          decide
        · simp only [hv]
          by_cases hve : v.isEmpty
          · have h1 : parseViewsCount (some v) = 0 := by
              simp [parseViewsCount, hve]
            simp only [hve, if_true, h1]
            decide
          · simp [hve]
    · exact absurd h (by simp)
  · intro ts
    unfold stampSavedAt
    split <;> rfl

/-- Witness for C5 at a concrete element (aria label `"1,234 views"`). -/
theorem C5_views_count_consistent_witness :
    extractVideoData 0
        ⟨some ⟨some "T", some "/watch?v=a", some "1,234 views"⟩, [], none, none⟩ =
      some ⟨"T", "https://www.youtube.com/watch?v=a", "1,234", 1234, none, none, 0, none⟩ ∧
    (1234 : ℤ) = parseViewsCount (some "1,234") := by
  have hx : extractVideoData 0
      ⟨some ⟨some "T", some "/watch?v=a", some "1,234 views"⟩, [], none, none⟩ =
      some ⟨"T", "https://www.youtube.com/watch?v=a", "1,234", 1234, none, none, 0, none⟩ := by
    decide
  exact ⟨hx, (C5_views_count_consistent 0 _ _ hx).1⟩

/-- C6 counterexample: an element whose channel-name node is missing (all
mandatory fields present) yields a record carrying `None` for
`channel_name`, not the empty-string default the claim states. -/
theorem C6_counterexample_channel_none :
    extractVideoData 0
        ⟨some ⟨some "T", some "/watch?v=b", none⟩, [], none, some "3 days ago"⟩ =
      some ⟨"T", "https://www.youtube.com/watch?v=b", "不明", 0, none,
            some "3 days ago", 0, none⟩ ∧
    (none : Option String) ≠ some "" := by
  constructor
  · decide
  · decide

theorem harvestElems_eq (now : ℚ) (maxResults : ℕ) :
    ∀ (es : List Element) (acc : List Record),
      harvestElems now maxResults es acc =
        acc ++ (es.filterMap (extractVideoData now)).take (maxResults - acc.length) := by
  intro es
  induction es with
  | nil => intro acc; simp [harvestElems]
  | cons e es ih =>
    intro acc
    unfold harvestElems
    split
    · rename_i hle
      have : maxResults - acc.length = 0 := by omega
      simp [this]
    · rename_i hgt
      rcases hx : extractVideoData now e with _ | r
      · simp only [hx]
        rw [ih acc]
        simp [List.filterMap_cons, hx]
      · simp only [hx]
        rw [ih (acc ++ [r])]
        have h1 : maxResults - acc.length = (maxResults - (acc.length + 1)) + 1 := by omega
        simp [List.filterMap_cons, hx, h1, List.take_succ_cons]

/-- C6 (amended): extraction fails (`None`) exactly for elements whose
title or url is falsy (missing node, missing attribute, or empty string);
on success the optional fields carry the code's actual defaults —
`channel_name`/`upload_time` are the queried texts, hence Python `None`
(not the empty string) when their nodes are missing, and `views_text` is
the `不明` sentinel when no count text was found; and a harvested batch is
exactly the in-order `filterMap` of the extractor over the slice, truncated
at the remaining target count (so the failing elements are excluded and
relative DOM order is preserved). -/
theorem C6_amended_extraction_tolerance (now : ℚ) :
    (∀ e : Element,
      extractVideoData now e = none ↔
        (optFalsy (e.titleElem.bind TitleElem.titleAttr) = true ∨
         optFalsy (e.titleElem.bind TitleElem.href) = true)) ∧
    (∀ (e : Element) (r : Record), extractVideoData now e = some r →
      r.channelName = e.channelText ∧ r.uploadTime = e.timeText ∧
      (viewsTextOf e = none → r.viewsText = "不明")) ∧
    (∀ (maxResults : ℕ) (es : List Element) (acc : List Record),
      harvestElems now maxResults es acc =
        acc ++ (es.filterMap (extractVideoData now)).take (maxResults - acc.length)) := by
  refine ⟨?_, ?_, fun maxResults es acc => harvestElems_eq now maxResults es acc⟩
  · intro e
    unfold extractVideoData
    rcases het : e.titleElem.bind TitleElem.titleAttr with _ | t
    · simp [optFalsy]
    · rcases heu : e.titleElem.bind TitleElem.href with _ | u
      · simp [optFalsy]
      · by_cases hu : u.isEmpty
        · simp [optFalsy, hu]
        · by_cases ht : t.isEmpty
          · simp [optFalsy, hu, ht]
          · simp [optFalsy, hu, ht,
              urljoinYoutube_isEmpty_false u (Bool.eq_false_iff.mpr hu)]
  · intro e r h
    unfold extractVideoData at h
    split at h
    · split at h
      · exact absurd h (by simp)
      · rw [Option.some.injEq] at h
        subst h
        refine ⟨rfl, rfl, fun hv => ?_⟩
        dsimp only
        simp [hv]
    · exact absurd h (by simp)

/-- Witness for C6's amended theorem: extraction fails on an element with a
missing title node, succeeds with `None` channel on a complete-but-channel-
less element, and a two-element harvest keeps only the good record. -/
theorem C6_amended_extraction_tolerance_witness :
    extractVideoData 0 ⟨none, [], none, none⟩ = none ∧
    harvestElems 0 5
        [⟨none, [], none, none⟩, ⟨some ⟨some "T", some "/watch?v=b", none⟩, [], none, none⟩]
        [] =
      ([⟨none, [], none, none⟩,
        ⟨some ⟨some "T", some "/watch?v=b", none⟩, [], none, none⟩].filterMap
          (extractVideoData 0)).take 5 := by
  have h := C6_amended_extraction_tolerance 0
  refine ⟨(h.1 ⟨none, [], none, none⟩).mpr (Or.inl (by decide)), ?_⟩
  have h3 := h.2.2 5
    [⟨none, [], none, none⟩, ⟨some ⟨some "T", some "/watch?v=b", none⟩, [], none, none⟩] []
  exact h3

theorem harvestElems_length_ge (now : ℚ) (maxResults : ℕ) (es : List Element)
    (acc : List Record) : acc.length ≤ (harvestElems now maxResults es acc).length := by
  rw [harvestElems_eq]
  simp

theorem harvestElems_length_le (now : ℚ) (maxResults : ℕ) (es : List Element)
    (acc : List Record) (h : acc.length ≤ maxResults) :
    (harvestElems now maxResults es acc).length ≤ maxResults := by
  rw [harvestElems_eq]
  have := List.length_take_le (maxResults - acc.length) (es.filterMap (extractVideoData now))
  simp only [List.length_append]
  omega

theorem harvestElems_length_all_some (now : ℚ) (maxResults : ℕ) :
    ∀ (es : List Element) (acc : List Record),
      (∀ e ∈ es, (extractVideoData now e).isSome) →
      (harvestElems now maxResults es acc).length =
        acc.length + (processedElems now maxResults es acc.length).length := by
  intro es
  induction es with
  | nil => intro acc _; simp [harvestElems, processedElems]
  | cons e es ih =>
    intro acc hall
    unfold harvestElems processedElems
    split
    · simp
    · rcases hx : extractVideoData now e with _ | r
      · exact absurd (hall e (by simp)) (by simp [hx])
      · simp only [hx]
        have hlen : (acc ++ [r]).length = acc.length + 1 := by simp
        rw [ih (acc ++ [r]) (fun x hx' => hall x (by simp [hx'])), hlen]
        simp only [List.length_cons]
        omega

theorem scrapeCycle_invariant (now : ℚ) (maxResults : ℕ) (elems : List Element)
    (s : ScrapeState) :
    (scrapeCycle now maxResults elems s).prevCount =
      (scrapeCycle now maxResults elems s).results.length :=
  rfl

theorem scrapeCycle_results_le (now : ℚ) (maxResults : ℕ) (elems : List Element)
    (s : ScrapeState) (h : s.results.length ≤ maxResults) :
    (scrapeCycle now maxResults elems s).results.length ≤ maxResults :=
  harvestElems_length_le now maxResults _ _ h

theorem scrapeLoop_terminates (now : ℚ) (maxResults : ℕ) (dom : ℕ → List Element) :
    ∀ (fuel k : ℕ) (s : ScrapeState),
      s.prevCount = s.results.length → s.results.length ≤ maxResults →
      scrapeMeasure maxResults s ≤ fuel →
      (scrapeLoop now maxResults dom fuel k s).isSome := by
  intro fuel
  induction fuel with
  | zero =>
    intro k s _ _ hm
    exact absurd hm (by unfold scrapeMeasure; omega)
  | succ fuel ih =>
    intro k s hinv hle hm
    unfold scrapeLoop
    by_cases hc : continueScrape maxResults s
    · rw [if_pos hc]
      have hb := (Bool.and_eq_true _ _).mp hc
      have hlen : s.results.length < maxResults := of_decide_eq_true hb.1
      have hscroll : s.scrollAttempts < maxScrollAttempts := of_decide_eq_true hb.2
      have hge : s.results.length ≤
          (harvestElems now maxResults ((dom k).drop s.prevCount) s.results).length :=
        harvestElems_length_ge now maxResults _ _
      have hle' :
          (harvestElems now maxResults ((dom k).drop s.prevCount) s.results).length ≤
            maxResults :=
        harvestElems_length_le now maxResults _ _ hle
      apply ih (k + 1) (scrapeCycle now maxResults (dom k) s) rfl hle'
      show (maxResults -
          (harvestElems now maxResults ((dom k).drop s.prevCount) s.results).length) *
            (maxScrollAttempts + 1) +
          (maxScrollAttempts -
            (if (harvestElems now maxResults ((dom k).drop s.prevCount) s.results).length
                = s.prevCount
             then s.scrollAttempts + 1 else 0)) + 1 ≤ fuel
      unfold scrapeMeasure at hm
      unfold maxScrollAttempts at hm hscroll ⊢
      by_cases hstag :
          (harvestElems now maxResults ((dom k).drop s.prevCount) s.results).length
            = s.prevCount
      · rw [if_pos hstag]
        have hL : (harvestElems now maxResults ((dom k).drop s.prevCount)
            s.results).length = s.results.length := by omega
        rw [hL]
        omega
      · rw [if_neg hstag]
        have hgt : s.results.length <
            (harvestElems now maxResults ((dom k).drop s.prevCount) s.results).length := by
          omega
        omega
    · rw [if_neg hc]
      simp

/-- C2: for every target count and every DOM growth pattern, the pagination
loop of `scrape` terminates — fuel `(maxResults + 1) * (maxScrollAttempts + 1)`
always suffices, and reaching `maxScrollAttempts` (10) consecutive stagnant
cycles stops the loop immediately, returning the accumulated partial result —
the returned sequence has length at most `maxResults`, and the accumulated
result list never shrinks across cycles. -/
theorem C2_pagination_bounded_termination (now : ℚ) (maxResults : ℕ)
    (dom : ℕ → List Element) :
    (scrape now maxResults dom ((maxResults + 1) * (maxScrollAttempts + 1))).isSome ∧
    (∀ (fuel k : ℕ) (s : ScrapeState), maxScrollAttempts ≤ s.scrollAttempts →
      scrapeLoop now maxResults dom (fuel + 1) k s = some s) ∧
    (∀ out : List Record,
      scrape now maxResults dom ((maxResults + 1) * (maxScrollAttempts + 1)) = some out →
      out.length ≤ maxResults) ∧
    (∀ (elems : List Element) (s : ScrapeState),
      s.results.length ≤ (scrapeCycle now maxResults elems s).results.length) := by
  refine ⟨?_, ?_, ?_, fun elems s => harvestElems_length_ge now maxResults _ _⟩
  · unfold scrape
    have hterm := scrapeLoop_terminates now maxResults dom
      ((maxResults + 1) * (maxScrollAttempts + 1)) 0 initState rfl
      (by simp [initState]) ?_
    · rcases hres : scrapeLoop now maxResults dom
          ((maxResults + 1) * (maxScrollAttempts + 1)) 0 initState with _ | s
      · rw [hres] at hterm
        exact absurd hterm (by simp)
      · simp
    · unfold scrapeMeasure initState maxScrollAttempts
      simp only [List.length_nil]
      omega
  · intro fuel k s hs
    have hcond : continueScrape maxResults s = false := by
      have h2 : decide (s.scrollAttempts < maxScrollAttempts) = false :=
        decide_eq_false (by omega)
      simp [continueScrape, h2]
    unfold scrapeLoop
    rw [hcond]
    rfl
  · intro out hout
    unfold scrape at hout
    rcases hmap : scrapeLoop now maxResults dom
        ((maxResults + 1) * (maxScrollAttempts + 1)) 0 initState with _ | s
    · rw [hmap] at hout
      exact absurd hout (by simp)
    · rw [hmap] at hout
      simp at hout
      subst hout
      exact List.length_take_le _ _

/-- Witness for C2 with target count 1 and a DOM that never renders
anything: the loop stops after ten stagnant cycles with an empty partial
result. -/
theorem C2_pagination_bounded_termination_witness :
    (scrape 0 1 (fun _ => []) 22).isSome ∧
    scrapeLoop 0 1 (fun _ => []) 1 0 ⟨[], 0, 10⟩ = some ⟨[], 0, 10⟩ ∧
    ([] : List Record).length ≤ 1 := by
  have h := C2_pagination_bounded_termination 0 1 (fun _ => [])
  refine ⟨h.1, h.2.1 0 0 ⟨[], 0, 10⟩ (by decide), h.2.2.1 [] ?_⟩
  decide

/-- C3 counterexample: with a DOM holding one mandatory-field-less element
followed by one good element, `prev_count` after the first cycle is the
number of accumulated records (1), not the number of elements already
processed (2), so the second cycle's slice starts at index 1 and the good
element — already extracted in cycle one — is passed to the extractor a
second time. -/
theorem C3_counterexample_reextraction :
    processedElems 0 5
        (([⟨none, [], none, none⟩,
           ⟨some ⟨some "G", some "/watch?v=g", none⟩, [], none, none⟩] :
            List Element).drop initState.prevCount) initState.results.length =
      [⟨none, [], none, none⟩,
       ⟨some ⟨some "G", some "/watch?v=g", none⟩, [], none, none⟩] ∧
    (scrapeCycle 0 5
        [⟨none, [], none, none⟩,
         ⟨some ⟨some "G", some "/watch?v=g", none⟩, [], none, none⟩]
        initState).prevCount = 1 ∧
    processedElems 0 5
        (([⟨none, [], none, none⟩,
           ⟨some ⟨some "G", some "/watch?v=g", none⟩, [], none, none⟩] :
            List Element).drop
          (scrapeCycle 0 5
            [⟨none, [], none, none⟩,
             ⟨some ⟨some "G", some "/watch?v=g", none⟩, [], none, none⟩]
            initState).prevCount)
        (scrapeCycle 0 5
          [⟨none, [], none, none⟩,
           ⟨some ⟨some "G", some "/watch?v=g", none⟩, [], none, none⟩]
          initState).results.length =
      [⟨some ⟨some "G", some "/watch?v=g", none⟩, [], none, none⟩] := by
  refine ⟨?_, ?_, ?_⟩ <;> decide

/-- C3 (amended): `prev_count` always equals the number of accumulated
records, hence is non-decreasing across cycles; only when every element of
the processed slice extracts successfully does it advance by exactly the
number of elements processed, making the cycles' slices disjoint.  (When an
extraction fails, `prev_count` undercounts the elements seen and the next
cycle re-extracts the tail — the counterexample.) -/
theorem C3_amended_prev_count_tracks_results (now : ℚ) (maxResults : ℕ)
    (elems : List Element) (s : ScrapeState) (hinv : s.prevCount = s.results.length) :
    ((scrapeCycle now maxResults elems s).prevCount =
        (scrapeCycle now maxResults elems s).results.length ∧
      s.prevCount ≤ (scrapeCycle now maxResults elems s).prevCount) ∧
    ((∀ e ∈ elems.drop s.prevCount, (extractVideoData now e).isSome) →
      (scrapeCycle now maxResults elems s).prevCount =
        s.prevCount +
          (processedElems now maxResults (elems.drop s.prevCount)
            s.results.length).length) := by
  constructor
  · refine ⟨rfl, ?_⟩
    have := harvestElems_length_ge now maxResults (elems.drop s.prevCount) s.results
    show s.prevCount ≤ (harvestElems now maxResults (elems.drop s.prevCount) s.results).length
    omega
  · intro hall
    show (harvestElems now maxResults (elems.drop s.prevCount) s.results).length = _
    rw [harvestElems_length_all_some now maxResults _ _ hall, hinv]

/-- Witness for C3's amended theorem: one good element, all extractions
succeed, `prev_count` advances from 0 to 1 — the number processed. -/
theorem C3_amended_prev_count_tracks_results_witness :
    (scrapeCycle 0 5 [⟨some ⟨some "G", some "/watch?v=g", none⟩, [], none, none⟩]
        initState).prevCount =
      (scrapeCycle 0 5 [⟨some ⟨some "G", some "/watch?v=g", none⟩, [], none, none⟩]
        initState).results.length ∧
    (scrapeCycle 0 5 [⟨some ⟨some "G", some "/watch?v=g", none⟩, [], none, none⟩]
        initState).prevCount =
      0 + (processedElems 0 5
        [⟨some ⟨some "G", some "/watch?v=g", none⟩, [], none, none⟩] 0).length := by
  have h := C3_amended_prev_count_tracks_results 0 5
    [⟨some ⟨some "G", some "/watch?v=g", none⟩, [], none, none⟩] initState rfl
  exact ⟨h.1.1, h.2 (by decide)⟩

theorem length_filter_countP {α : Type} (p : α → Bool) (l : List α) :
    (l.filter p).length = l.countP p := by
  induction l with
  | nil => rfl
  | cons a l ih => by_cases h : p a <;> simp [List.filter_cons, List.countP_cons, h, ih]

theorem filterMap_truthy_urls (rs : List Record)
    (h : ∀ r ∈ rs, r.url.isEmpty = false) :
    (rs.filterMap fun r => if r.url.isEmpty then none else some r.url) =
      rs.map Record.url := by
  induction rs with
  | nil => rfl
  | cons r rs ih =>
    have h1 := h r (by simp)
    simp [List.filterMap_cons, h1, ih fun x hx => h x (by simp [hx])]

theorem checkDuplicates_nil (urls : List String) : checkDuplicates [] urls = [] := by
  unfold checkDuplicates
  rw [List.filter_eq_nil_iff]
  intro a _
  simp [sheetsLoad]

theorem dictGet_loadItem_url (w : String) (x : Record) :
    dictGet (sheetLoadItem sheetHeader (recordToRow w x)) "url" = some (PyVal.str x.url) :=
  rfl

theorem loadItem_ne_empty (w : String) (x : Record) :
    (sheetLoadItem sheetHeader (recordToRow w x)).isEmpty = false :=
  rfl

theorem loadItems_filterMap_urls (w : String) (rs : List Record)
    (h : ∀ r ∈ rs, r.url.isEmpty = false) :
    ((((rs.map (recordToRow w)).map (sheetLoadItem sheetHeader)).filter
        fun item => !item.isEmpty).filterMap fun item =>
          match dictGet item "url" with
          | some (PyVal.str v) => if v.isEmpty then none else some v
          | _ => none) = rs.map Record.url := by
  induction rs with
  | nil => rfl
  | cons r rs ih =>
    have h1 := h r (by simp)
    simp only [List.map_cons, List.filter_cons, loadItem_ne_empty, Bool.not_false, if_true,
      List.filterMap_cons, dictGet_loadItem_url, h1]
    rw [ih fun x hx => h x (by simp [hx])]
    simp [h1]

/-- C4 counterexample: the dedup check consults only the urls already in the
remote store, not the batch being written, so a record sequence holding the
same url twice is written twice on the first persist: the store then has two
rows for that unique url (the second persist adds nothing more). -/
theorem C4_counterexample_duplicate_in_batch :
    (((sheetsPersist "w2"
          (sheetsPersist "w1" []
            [⟨"T", "https://u", "1", 1, none, none, 0, none⟩,
             ⟨"T", "https://u", "1", 1, none, none, 0, none⟩])
          [⟨"T", "https://u", "1", 1, none, none, 0, none⟩,
           ⟨"T", "https://u", "1", 1, none, none, 0, none⟩]).drop 1).filter
        fun row => row.getD 1 "" == "https://u").length = 2 ∧
    (2 : ℕ) ≠ 1 := by
  constructor
  · decide
  · decide

/-- C4 (amended): for a record sequence whose urls are nonempty and pairwise
distinct, persisting it twice against an initially empty remote store leaves
exactly one stored data row per url, and the second persist leaves the store
unchanged.  (With a duplicate url inside one batch the first persist already
writes two rows — see the counterexample.) -/
theorem C4_amended_dedup_idempotent (w1 w2 : String) (results : List Record)
    (hne : ∀ r ∈ results, r.url.isEmpty = false)
    (hnd : (results.map Record.url).Nodup) :
    sheetsPersist w2 (sheetsPersist w1 [] results) results =
      sheetsPersist w1 [] results ∧
    ∀ r ∈ results,
      (((sheetsPersist w1 [] results).drop 1).filter
          fun row => row.getD 1 "" == r.url).length = 1 := by
  by_cases hre : results.isEmpty
  · have : results = [] := List.isEmpty_iff.mp hre
    subst this
    exact ⟨rfl, by simp⟩
  · have hne' : results ≠ [] := fun hh => hre (by simp [hh])
    have hEmpty : results.isEmpty = false := Bool.eq_false_iff.mpr hre
    have hfm := filterMap_truthy_urls results hne
    have h1 : sheetsPersist w1 [] results = sheetHeader :: results.map (recordToRow w1) := by
      simp only [sheetsPersist, hfm, checkDuplicates_nil]
      rw [if_neg (by simp [hEmpty])]
      have hk : (results.filter fun r => !(([] : List String).contains r.url)) = results :=
        List.filter_eq_self.mpr fun a _ => rfl
      rw [hk, if_neg (by simp [hEmpty])]
      simp [sheetsSave]
    have h2 : sheetsPersist w2 (sheetHeader :: results.map (recordToRow w1)) results =
        sheetHeader :: results.map (recordToRow w1) := by
      have hload : sheetsLoad (sheetHeader :: results.map (recordToRow w1)) =
          ((results.map (recordToRow w1)).map (sheetLoadItem sheetHeader)).filter
            fun item => !item.isEmpty := by
        rcases results with _ | ⟨a, l⟩
        · exact absurd rfl hne'
        · rfl
      have hdup : checkDuplicates (sheetHeader :: results.map (recordToRow w1))
          (results.filterMap fun r => if r.url.isEmpty then none else some r.url) =
          results.map Record.url := by
        unfold checkDuplicates
        simp only [hload, loadItems_filterMap_urls w1 results hne]
        rw [hfm]
        exact List.filter_eq_self.mpr fun a ha => List.elem_iff.mpr ha
      simp only [sheetsPersist]
      rw [if_neg (by simp [hEmpty])]
      simp only [hdup]
      have hkept : (results.filter fun r => !(results.map Record.url).contains r.url) = [] := by
        rw [List.filter_eq_nil_iff]
        intro a ha
        have hmem : (results.map Record.url).contains a.url = true :=
          List.elem_iff.mpr (List.mem_map_of_mem Record.url ha)
        simp only [hmem, Bool.not_true]
        exact Bool.false_ne_true
      rw [hkept]
      simp
    refine ⟨by rw [h1]; exact h2, ?_⟩
    intro r hr
    rw [h1]
    simp only [List.drop_succ_cons, List.drop_zero]
    rw [List.filter_map (recordToRow w1) results, List.length_map, length_filter_countP]
    have h4 := List.count_eq_one_of_mem hnd (List.mem_map_of_mem Record.url hr)
    simp only [List.count] at h4
    rw [List.countP_map] at h4
    exact h4

/-- Witness for C4's amended theorem: a single record, persisted twice into
an empty store. -/
theorem C4_amended_dedup_idempotent_witness :
    sheetsPersist "w2"
        (sheetsPersist "w1" [] [⟨"A", "https://a", "1", 1, none, none, 0, none⟩])
        [⟨"A", "https://a", "1", 1, none, none, 0, none⟩] =
      sheetsPersist "w1" [] [⟨"A", "https://a", "1", 1, none, none, 0, none⟩] ∧
    (((sheetsPersist "w1" [] [⟨"A", "https://a", "1", 1, none, none, 0, none⟩]).drop 1).filter
        fun row => row.getD 1 "" == "https://a").length = 1 := by
  have h := C4_amended_dedup_idempotent "w1" "w2"
    [⟨"A", "https://a", "1", 1, none, none, 0, none⟩] (by decide) (by decide)
  exact ⟨h.1, h.2 ⟨"A", "https://a", "1", 1, none, none, 0, none⟩ (by decide)⟩

/-- C7: the two storage blocks of `save_results` are isolated.  The local
backends' outcomes do not depend on the Google-Sheets oracle (the sheets
block runs after them inside its own `try/except`), and whether the sheets
write is attempted and how it is reported does not depend on the local
oracle (whose exceptions are caught before the sheets block runs): each
backend's outcome is a function of its own behaviour only. -/
theorem C7_backend_isolation (results : List Record)
    (useSheets useLocal sheetIdSet : Bool)
    (lb lb' : LocalBehavior) (sb sb' : SheetsBehavior) :
    ((saveResults results useSheets useLocal sheetIdSet lb sb).jsonSaved =
        (saveResults results useSheets useLocal sheetIdSet lb sb').jsonSaved ∧
      (saveResults results useSheets useLocal sheetIdSet lb sb).csvSaved =
        (saveResults results useSheets useLocal sheetIdSet lb sb').csvSaved) ∧
    ((saveResults results useSheets useLocal sheetIdSet lb sb).sheetsAttempted =
        (saveResults results useSheets useLocal sheetIdSet lb' sb).sheetsAttempted ∧
      (saveResults results useSheets useLocal sheetIdSet lb sb).sheetsSaved =
        (saveResults results useSheets useLocal sheetIdSet lb' sb).sheetsSaved) := by
  unfold saveResults
  by_cases hr : results.isEmpty <;> simp [hr]

theorem rangeMap_pow_succ (d : ℚ) (i n : ℕ) :
    (List.range (n + 1)).map (fun j => d * 2 ^ (i + j)) =
      d * 2 ^ i :: (List.range n).map fun j => d * 2 ^ (i + 1 + j) := by
  rw [List.range_succ_eq_map]
  simp only [List.map_cons, List.map_map, Nat.add_zero]
  congr 1
  apply List.map_congr_left
  intro j _
  simp only [Function.comp_apply]
  rw [show i + (j + 1) = i + 1 + j by omega]

theorem connectGo_fail (retryDelay : ℚ) (ok : ℕ → Bool) :
    ∀ (n i : ℕ), (∀ j, j < n + 1 → ok (i + j) = false) →
      connectGo retryDelay ok i (n + 1) =
        (ConnectResult.raised, (List.range n).map fun j => retryDelay * 2 ^ (i + j)) := by
  intro n
  induction n with
  | zero =>
    intro i h
    unfold connectGo
    have h0 : ok i = false := by simpa using h 0 (by omega)
    rw [h0]
    simp
  | succ n ih =>
    intro i h
    unfold connectGo
    have h0 : ok i = false := by simpa using h 0 (by omega)
    rw [h0]
    have hih := ih (i + 1) fun j hj => by
      have := h (j + 1) (by omega)
      rwa [show i + (j + 1) = i + 1 + j by omega] at this
    simp only [Bool.false_eq_true, if_false, Nat.succ_ne_zero, hih]
    rw [rangeMap_pow_succ]

theorem connectGo_success (retryDelay : ℚ) (ok : ℕ → Bool) :
    ∀ (k n i : ℕ), k < n → (∀ j, j < k → ok (i + j) = false) → ok (i + k) = true →
      connectGo retryDelay ok i n =
        (ConnectResult.connected (i + k),
         (List.range k).map fun j => retryDelay * 2 ^ (i + j)) := by
  intro k
  induction k with
  | zero =>
    intro n i hn hf ht
    rcases n with _ | n
    · omega
    unfold connectGo
    have h0 : ok i = true := by simpa using ht
    rw [h0]
    simp
  | succ k ih =>
    intro n i hn hf ht
    rcases n with _ | n
    · omega
    unfold connectGo
    have h0 : ok i = false := by simpa using hf 0 (by omega)
    rw [h0]
    have hn0 : n ≠ 0 := by omega
    have hih := ih n (i + 1) (by omega)
      (fun j hj => by
        have := hf (j + 1) (by omega)
        rwa [show i + (j + 1) = i + 1 + j by omega] at this)
      (by rwa [show i + (k + 1) = i + 1 + k by omega] at ht)
    simp only [Bool.false_eq_true, if_false, hn0, hih]
    rw [rangeMap_pow_succ, show i + (k + 1) = i + 1 + k by omega]

theorem connectGo_connected_lt (retryDelay : ℚ) (ok : ℕ → Bool) :
    ∀ (n i k : ℕ), (connectGo retryDelay ok i n).1 = ConnectResult.connected k →
      k < i + n := by
  intro n
  induction n with
  | zero =>
    intro i k h
    exact absurd h (by simp [connectGo])
  | succ n ih =>
    intro i k h
    unfold connectGo at h
    by_cases h0 : ok i
    · rw [if_pos h0] at h
      simp at h
      omega
    · rw [if_neg h0] at h
      by_cases hn : n = 0
      · rw [if_pos hn] at h
        simp at h
      · rw [if_neg hn] at h
        dsimp only at h
        have := ih (i + 1) k h
        omega

theorem connectGo_not_raised (retryDelay : ℚ) (ok : ℕ → Bool) :
    ∀ (n i k : ℕ), k < n → ok (i + k) = true →
      (connectGo retryDelay ok i n).1 ≠ ConnectResult.raised := by
  intro n
  induction n with
  | zero => intro i k hk _; omega
  | succ n ih =>
    intro i k hk hok
    unfold connectGo
    by_cases h0 : ok i
    · rw [if_pos h0]
      simp
    · rw [if_neg h0]
      rcases k with _ | k
      · exact absurd hok (by simpa using h0)
      · have hn : n ≠ 0 := by omega
        rw [if_neg hn]
        dsimp only
        exact ih (i + 1) k (by omega)
          (by rwa [show i + (k + 1) = i + 1 + k by omega] at hok)

/-- C8: `connect` makes at most `max_retries` attempts (a successful attempt
index is below `max_retries`); it sleeps `retry_delay * 2 ** attempt` after
every failed attempt except the last; it re-raises the connection failure
exactly when all `max_retries` attempts failed; and it returns the browser
established on the first successful attempt.  (`max_retries` defaults to 3
and is assumed positive; with 0 attempts the Python loop body never runs.) -/
theorem C8_connect_retry_backoff (maxRetries : ℕ) (retryDelay : ℚ) (ok : ℕ → Bool)
    (hpos : 0 < maxRetries) :
    ((connectRun maxRetries retryDelay ok).1 = ConnectResult.raised ↔
      ∀ j, j < maxRetries → ok j = false) ∧
    ((∀ j, j < maxRetries → ok j = false) →
      (connectRun maxRetries retryDelay ok).2 =
        (List.range (maxRetries - 1)).map fun j => retryDelay * 2 ^ j) ∧
    (∀ k, k < maxRetries → ok k = true → (∀ j, j < k → ok j = false) →
      connectRun maxRetries retryDelay ok =
        (ConnectResult.connected k, (List.range k).map fun j => retryDelay * 2 ^ j)) ∧
    (∀ k, (connectRun maxRetries retryDelay ok).1 = ConnectResult.connected k →
      k < maxRetries) := by
  have hsucc : ∀ k, k < maxRetries → ok k = true → (∀ j, j < k → ok j = false) →
      connectRun maxRetries retryDelay ok =
        (ConnectResult.connected k, (List.range k).map fun j => retryDelay * 2 ^ j) := by
    intro k hk hok hmin
    unfold connectRun
    have := connectGo_success retryDelay ok k maxRetries 0 hk
      (fun j hj => by simpa using hmin j hj) (by simpa using hok)
    simpa using this
  refine ⟨⟨?_, ?_⟩, ?_, hsucc, ?_⟩
  · intro hraised
    by_contra hnot
    push_neg at hnot
    obtain ⟨j0, hj0, hokj⟩ := hnot
    have hokj' : ok j0 = true := by
      cases h : ok j0
      · exact absurd h hokj
      · rfl
    exact connectGo_not_raised retryDelay ok maxRetries 0 j0 hj0 (by simpa using hokj')
      hraised
  · intro hall
    rcases maxRetries with _ | m
    · omega
    unfold connectRun
    rw [connectGo_fail retryDelay ok m 0 fun j hj => by simpa using hall j (by omega)]
  · intro hall
    rcases maxRetries with _ | m
    · omega
    unfold connectRun
    rw [connectGo_fail retryDelay ok m 0 fun j hj => by simpa using hall j (by omega)]
    simp
  · intro k h
    have := connectGo_connected_lt retryDelay ok maxRetries 0 k h
    omega

/-- Witness for C8: three attempts, the second (index 1) succeeding — one
backoff delay of `retry_delay * 2 ^ 0` is slept. -/
theorem C8_connect_retry_backoff_witness :
    connectRun 3 1 (fun j => j == 1) =
      (ConnectResult.connected 1, (List.range 1).map fun j => (1 : ℚ) * 2 ^ j) := by
  have h := C8_connect_retry_backoff 3 1 (fun j => j == 1) (by decide)
  exact h.2.2.1 1 (by decide) (by decide) fun j hj => by
    have : j = 0 := Nat.lt_one_iff.mp hj
    subst this
    rfl

/-- C9: the persistence layer never rewrites extracted fields.  The local
backend's in-place stamping preserves every extracted field, adds
`saved_at` only when it is absent, and never overwrites a `saved_at`
already present.  (The remote backend only derives output rows from the
fields and touches no record.) -/
theorem C9_persistence_frame (ts : String) (r : Record) :
    (stampSavedAt ts r).title = r.title ∧
    (stampSavedAt ts r).url = r.url ∧
    (stampSavedAt ts r).viewsText = r.viewsText ∧
    (stampSavedAt ts r).viewsCount = r.viewsCount ∧
    (stampSavedAt ts r).channelName = r.channelName ∧
    (stampSavedAt ts r).uploadTime = r.uploadTime ∧
    (stampSavedAt ts r).scrapeTimestamp = r.scrapeTimestamp ∧
    (∀ t, r.savedAt = some t → (stampSavedAt ts r).savedAt = some t) ∧
    (r.savedAt = none → (stampSavedAt ts r).savedAt = some ts) := by
  unfold stampSavedAt
  by_cases h : r.savedAt.isNone
  · rw [if_pos h]
    refine ⟨rfl, rfl, rfl, rfl, rfl, rfl, rfl, ?_, fun _ => rfl⟩
    intro t ht
    rw [ht] at h
    exact absurd h (by simp)
  · rw [if_neg h]
    refine ⟨rfl, rfl, rfl, rfl, rfl, rfl, rfl, fun _ ht => ht, ?_⟩
    intro hn
    rw [hn] at h
    exact absurd rfl h

/-- Witness for C9: a record with `saved_at` present keeps it, one without
gets stamped; the title is untouched. -/
theorem C9_persistence_frame_witness :
    (stampSavedAt "ts" ⟨"T", "u", "v", 1, none, none, 0, some "x"⟩).savedAt = some "x" ∧
    (stampSavedAt "ts" ⟨"T", "u", "v", 1, none, none, 0, none⟩).savedAt = some "ts" ∧
    (stampSavedAt "ts" ⟨"T", "u", "v", 1, none, none, 0, some "x"⟩).title = "T" := by
  have h1 := C9_persistence_frame "ts" ⟨"T", "u", "v", 1, none, none, 0, some "x"⟩
  have h2 := C9_persistence_frame "ts" ⟨"T", "u", "v", 1, none, none, 0, none⟩
  exact ⟨h1.2.2.2.2.2.2.2.1 "x" rfl, h2.2.2.2.2.2.2.2.2 rfl, h1.1⟩

/-- C10 counterexample: an empty `views_count` cell is not a valid integer,
yet the `and row['views_count']` truthiness guard skips it, so the loaded
dict keeps the empty string rather than `0`. -/
theorem C10_counterexample_empty_cell :
    localLoadCsv (CsvFileState.content
        [["title", "url", "views_text", "views_count", "channel_name",
          "upload_time", "saved_at"],
         ["T", "u", "v", "", "", "", ""]]) =
      [[("title", PyVal.str "T"), ("url", PyVal.str "u"),
        ("views_text", PyVal.str "v"), ("views_count", PyVal.str ""),
        ("channel_name", PyVal.str ""), ("upload_time", PyVal.str ""),
        ("saved_at", PyVal.str "")]] ∧
    PyVal.str "" ≠ PyVal.int 0 := by
  constructor
  · decide
  · decide

/-- C10 (amended): `LocalFileStorage.load` is total — a missing file, an
unparsable JSON file and an unreadable CSV file each yield the empty list —
and on a CSV read every *non-empty* `views_count` cell that is not a valid
integer is replaced by `0` (and a valid one by its integer value); an empty
or missing cell is left untouched by the truthiness guard (see the
counterexample). -/
theorem C10_amended_load_total :
    localLoadJson JsonFileState.missing = [] ∧
    localLoadJson JsonFileState.unparsable = [] ∧
    localLoadCsv CsvFileState.missing = [] ∧
    localLoadCsv CsvFileState.unreadable = [] ∧
    (∀ (item : List (String × PyVal)) (s : String),
      ("views_count", PyVal.str s) ∈ item → s.isEmpty = false →
      (pyInt s = none → ("views_count", PyVal.int 0) ∈ fixViewsCount item) ∧
      (∀ z : ℤ, pyInt s = some z → ("views_count", PyVal.int z) ∈ fixViewsCount item)) := by
  refine ⟨rfl, rfl, rfl, rfl, ?_⟩
  intro item s hm hne
  constructor
  · intro hp
    apply List.mem_map.mpr
    exact ⟨("views_count", PyVal.str s), hm, by simp [hne, hp]⟩
  · intro z hp
    apply List.mem_map.mpr
    exact ⟨("views_count", PyVal.str s), hm, by simp [hne, hp]⟩

/-- Witness for C10's amended theorem: `"abc"` is replaced by `0`, `"42"`
parses to `42`. -/
theorem C10_amended_load_total_witness :
    ("views_count", PyVal.int 0) ∈ fixViewsCount [("views_count", PyVal.str "abc")] ∧
    ("views_count", PyVal.int 42) ∈ fixViewsCount [("views_count", PyVal.str "42")] := by
  have h1 := (C10_amended_load_total.2.2.2.2 [("views_count", PyVal.str "abc")] "abc"
    (by decide) (by decide)).1 (by decide)
  have h2 := (C10_amended_load_total.2.2.2.2 [("views_count", PyVal.str "42")] "42"
    (by decide) (by decide)).2 42 (by decide)
  exact ⟨h1, h2⟩

end YTScraper
